import Mathlib

/-!
Verification of the quiz CLI command layer (`cmds.js`).

The source is a Node.js readline application whose commands manipulate a
Sequelize-backed table of quizzes.  We shallow-embed it as follows:

* JS strings are Lean `String`s; `String.prototype.trim`,
  `String.prototype.toLowerCase` and the global `parseInt` are modelled by
  `jsTrim`, `jsToLower` and `jsParseInt` below (ASCII case folding, the
  common whitespace characters, and exact integers instead of IEEE doubles;
  these are the only fragments the program exercises).
* The quiz table is a `List Quiz`; the Sequelize operations the commands
  invoke (`findById`, `destroy`, `create`, `save`) are pure functions on
  that list.  The storage layer itself (`model.js`) is not part of the
  sources, so its non-empty-field validation is modelled from the spec.
* Console/readline effects are reified as an event trace (`Ev`): `log`,
  `biglog`, `errorlog` (the formatted error logger), `diag` (plain
  `console.log`), `ask` (a `makeQuestion` prompt shown to the user) and
  `prompt` (a REPL re-prompt).  `makeQuestion` resolves with the *trimmed*
  user input (`answer.trim()` in the source), which is why every command
  applies `jsTrim` to the raw text it receives from the user.
* `Math.floor(Math.random() * n)` (an integer uniformly drawn from
  `[0, n)` for `n ≥ 1`) is modelled by an oracle `choice : Nat → Nat`
  reduced mod `n` at step `k`.
-/

namespace P4Quiz

/-- The whitespace characters stripped by JS `trim` / skipped by `parseInt`
(the ASCII ones; the program never feeds it exotic Unicode spaces). -/
def isJsWhitespace (c : Char) : Bool :=
  c = ' ' || c = '\t' || c = '\n' || c = '\r' || c = '\x0b' || c = '\x0c'

/-- Character list version of JS `String.prototype.trim`: drop whitespace
from the front, then from the back. -/
def trimChars (cs : List Char) : List Char :=
  ((cs.dropWhile isJsWhitespace).reverse.dropWhile isJsWhitespace).reverse

/-- JS `String.prototype.trim`. -/
def jsTrim (s : String) : String :=
  ⟨trimChars s.data⟩

/-- JS `String.prototype.toLowerCase`, restricted to ASCII (the only case
mapping the program's data exercises). -/
def jsToLowerChar (c : Char) : Char :=
  if 'A' ≤ c ∧ c ≤ 'Z' then Char.ofNat (c.toNat + 32) else c

/-- ASCII lower-casing of a string. -/
def jsToLower (s : String) : String :=
  ⟨s.data.map jsToLowerChar⟩

/-- Value of a decimal digit character, `none` for a non-digit. -/
def decDigit? (c : Char) : Option Nat :=
  if '0' ≤ c ∧ c ≤ '9' then some (c.toNat - '0'.toNat) else none

/-- Value of a hexadecimal digit character, `none` otherwise. -/
def hexDigit? (c : Char) : Option Nat :=
  if '0' ≤ c ∧ c ≤ '9' then some (c.toNat - '0'.toNat)
  else if 'a' ≤ c ∧ c ≤ 'f' then some (c.toNat - 'a'.toNat + 10)
  else if 'A' ≤ c ∧ c ≤ 'F' then some (c.toNat - 'A'.toNat + 10)
  else none

/-- Accumulate the value of the longest digit run at the head of the list
(the remainder of the string is discarded, as in JS `parseInt`). -/
def digitsValAux (digitOf : Char → Option Nat) (radix : Nat) (acc : Nat) :
    List Char → Nat
  | [] => acc
  | c :: rest =>
    match digitOf c with
    | some d => digitsValAux digitOf radix (acc * radix + d) rest
    | none => acc

/-- Value of the longest non-empty digit run at the head of the list;
`none` when the first character is not a digit (JS `parseInt` yields NaN). -/
def digitsValue (digitOf : Char → Option Nat) (radix : Nat) :
    List Char → Option Nat
  | [] => none
  | c :: rest =>
    match digitOf c with
    | some d => some (digitsValAux digitOf radix d rest)
    | none => none

/-- Unsigned part of JS `parseInt` with no radix argument: a `0x`/`0X`
string switches to base 16, otherwise base 10. -/
def parseUnsigned (cs : List Char) : Option Nat :=
  match cs with
  | c0 :: c1 :: rest =>
    if c0 = '0' ∧ (c1 = 'x' ∨ c1 = 'X') then digitsValue hexDigit? 16 rest
    else digitsValue decDigit? 10 (c0 :: c1 :: rest)
  | _ => digitsValue decDigit? 10 cs

/-- JS `parseInt(s)` (no radix argument): skip leading whitespace, read an
optional sign, then the longest digit run; `none` models NaN.  Exact
integers stand in for IEEE doubles (the program only handles small ids). -/
def jsParseInt (s : String) : Option Int :=
  match s.data.dropWhile isJsWhitespace with
  | [] => none
  | c :: rest =>
    if c = '-' then (parseUnsigned rest).map (fun n => -(n : Int))
    else if c = '+' then (parseUnsigned rest).map (fun n => (n : Int))
    else (parseUnsigned (c :: rest)).map (fun n => (n : Int))

/-- Outcome of `validateId`: the rejection reasons are the spec's
`MissingParameterError` and `InvalidParameterError`. -/
inductive IdResult where
  | missingParam
  | invalidParam
  | ok (n : Int)
deriving DecidableEq

/-- `validateId` from `cmds.js`: an `undefined` argument (`none`) is
rejected as missing; otherwise `parseInt` is applied and a NaN result is
rejected as invalid. -/
def validateId : Option String → IdResult
  | none => .missingParam
  | some s =>
    match jsParseInt s with
    | none => .invalidParam
    | some n => .ok n

/-- The persisted entity: one row of the quiz table. -/
structure Quiz where
  id : Int
  question : String
  answer : String
deriving DecidableEq

/-- Sequelize `findById`: the row with the given id, if any. -/
def findById (db : List Quiz) (n : Int) : Option Quiz :=
  db.find? (fun q => q.id == n)

/-- Sequelize `destroy({where: {id}})`: remove every row with the given id;
removing zero rows is not an error. -/
def destroyWhere (db : List Quiz) (n : Int) : List Quiz :=
  db.filter (fun q => !(q.id == n))

/-- Modelled from the spec: the storage schema (`model.js`, not among the
sources) declares `question` and `answer` non-empty; a violated field
contributes one validation message. -/
def quizValidationMsgs (question answer : String) : List String :=
  (if question = "" then ["Validation notEmpty on question failed"] else []) ++
    (if answer = "" then ["Validation notEmpty on answer failed"] else [])

/-- Modelled from the spec: storage assigns a fresh unique id on creation
(autoincrement); any id distinct from the existing ones would do. -/
def nextId (db : List Quiz) : Int :=
  db.foldr (fun q m => max q.id m) 0 + 1

/-- Sequelize `create({question, answer})`: validate the fields, then
append a new row with a storage-assigned id. -/
def createOp (db : List Quiz) (question answer : String) :
    Except (List String) (List Quiz × Quiz) :=
  match quizValidationMsgs question answer with
  | [] =>
    let q : Quiz := ⟨nextId db, question, answer⟩
    .ok (db ++ [q], q)
  | msgs => .error msgs

/-- Sequelize `quiz.save()`: validate the mutated record, then persist it
over every row carrying its id. -/
def saveOp (db : List Quiz) (q : Quiz) : Except (List String) (List Quiz) :=
  match quizValidationMsgs q.question q.answer with
  | [] => .ok (db.map (fun r => if r.id == q.id then q else r))
  | msgs => .error msgs

/-- Observable I/O of a command, in order: `log`/`biglog`/`errorlog` are
the formatted output helpers from `out.js` (colour codes dropped), `diag`
is a plain `console.log`, `ask` is a `makeQuestion` prompt shown to the
user, and `prompt` is a REPL re-prompt (`rl.prompt()`). -/
inductive Ev where
  | log (text : String)
  | biglog (text : String)
  | errorlog (text : String)
  | diag (text : String)
  | ask (text : String)
  | prompt
deriving DecidableEq

/-- `validateId`'s rejection message for a missing argument. -/
def missingIdMsg : String := "Falta el parametro <id>."

/-- `validateId`'s rejection message for a non-numeric argument. -/
def invalidIdMsg : String := "El valor del parámetro <id> no es un número."

/-- The not-found message.  In the source the template interpolates the
*raw* command argument (the outer `id` parameter, not the parsed integer,
which is shadowed only inside the `findById` lambda). -/
def notFoundMsg (raw : String) : String :=
  s!"No existe un quiz asociado al id={raw}."

/-- True exactly on REPL re-prompt events. -/
def isPromptEv : Ev → Bool
  | .prompt => true
  | _ => false

/-- True exactly on formatted-error-logger events. -/
def isErrorlogEv : Ev → Bool
  | .errorlog _ => true
  | _ => false

/-- Number of REPL re-prompts in a trace. -/
def promptCount (evs : List Ev) : Nat := evs.countP isPromptEv

/-- Whether a trace contains any formatted error output. -/
def hasErrorlog (evs : List Ev) : Bool := evs.any isErrorlogEv

/-- The questions asked of the user during a trace, in order. -/
def asksIn (evs : List Ev) : List String :=
  evs.filterMap (fun e => match e with | .ask t => some t | _ => none)

/-- The answer comparison shared verbatim by `testCmd` and `playCmd`:
`makeQuestion` has already trimmed the raw input once, and the handler
compares `a.trim().toLowerCase() === quiz.answer.trim().toLowerCase()`. -/
def answersMatch (userRaw stored : String) : Bool :=
  jsToLower (jsTrim (jsTrim userRaw)) == jsToLower (jsTrim stored)

/-- `showCmd`: validate the id, fetch the row, print it or the not-found
error, and re-prompt. -/
def showCmd (idArg : Option String) (db : List Quiz) : List Quiz × List Ev :=
  match validateId idArg with
  | .missingParam => (db, [.errorlog missingIdMsg, .prompt])
  | .invalidParam => (db, [.errorlog invalidIdMsg, .prompt])
  | .ok n =>
    match findById db n with
    | none => (db, [.errorlog (notFoundMsg (idArg.getD "")), .prompt])
    | some q => (db, [.log s!"[{q.id}]: {q.question} => {q.answer}", .prompt])

/-- `testCmd`: validate and fetch, ask the quiz's question, compare the
answer, print the correct/incorrect feedback and banner, re-prompt.
`userRaw` is the raw line the user types at the question. -/
def testCmd (idArg : Option String) (userRaw : String) (db : List Quiz) :
    List Quiz × List Ev :=
  match validateId idArg with
  | .missingParam => (db, [.errorlog missingIdMsg, .prompt])
  | .invalidParam => (db, [.errorlog invalidIdMsg, .prompt])
  | .ok n =>
    match findById db n with
    | none => (db, [.errorlog (notFoundMsg (idArg.getD "")), .prompt])
    | some q =>
      if answersMatch userRaw q.answer then
        (db, [.ask (q.question ++ "? "), .log "Su respuesta es correcta.",
              .biglog "Correcta", .prompt])
      else
        (db, [.ask (q.question ++ "? "), .log "Su respuesta es incorrecta.",
              .biglog "Incorrecta", .prompt])

/-- `addCmd`: ask for a question and an answer (both resolved trimmed by
`makeQuestion`), then `create`.  `storageErr` injects the generic failure
of the storage collaborator (e.g. connectivity), caught by the final
generic handler; `none` means storage is reachable. -/
def addCmd (storageErr : Option String) (qRaw aRaw : String)
    (db : List Quiz) : List Quiz × List Ev :=
  let asks : List Ev := [.ask "Introduzca una pregunta: ",
                         .ask "Introduzca la respuesta "]
  match storageErr with
  | some m => (db, asks ++ [.errorlog m, .prompt])
  | none =>
    match createOp db (jsTrim qRaw) (jsTrim aRaw) with
    | .error msgs =>
      (db, asks ++ (.errorlog "El quiz es erroneo:" :: msgs.map Ev.errorlog)
          ++ [.prompt])
    | .ok (db2, q) =>
      (db2, asks ++ [.log s!" Se ha añadido: {q.question} => {q.answer}",
                     .prompt])

/-- `editCmd`: validate and fetch, ask for the replacement question and
answer, then assign and `save`.  The source assigns `quiz.question = q;
quiz.answer = q;` — the *question* text is stored in both fields and the
second prompt's input `aRaw` is discarded. -/
def editCmd (idArg : Option String) (qRaw aRaw : String)
    (db : List Quiz) : List Quiz × List Ev :=
  match validateId idArg with
  | .missingParam => (db, [.errorlog missingIdMsg, .prompt])
  | .invalidParam => (db, [.errorlog invalidIdMsg, .prompt])
  | .ok n =>
    match findById db n with
    | none => (db, [.errorlog (notFoundMsg (idArg.getD "")), .prompt])
    | some quiz =>
      let asks : List Ev := [.ask "Introduzca la pregunta: ",
                             .ask "Introduzca la respuesta "]
      let q := jsTrim qRaw
      let updated : Quiz := { quiz with question := q, answer := q }
      match saveOp db updated with
      | .error msgs =>
        (db, asks ++ (.errorlog "El quiz es erroneo:" :: msgs.map Ev.errorlog)
            ++ [.prompt])
      | .ok db2 =>
        (db2, asks ++
          [.log s!" Se ha cambiado el quiz {updated.id} por: {updated.question} => {updated.answer}",
           .prompt])

/-- `deleteCmd`: validate the id and `destroy` the matching rows; there is
no existence check and no error when nothing matches. -/
def deleteCmd (idArg : Option String) (db : List Quiz) :
    List Quiz × List Ev :=
  match validateId idArg with
  | .missingParam => (db, [.errorlog missingIdMsg, .prompt])
  | .invalidParam => (db, [.errorlog invalidIdMsg, .prompt])
  | .ok n => (destroyWhere db n, [.prompt])

/-- Row used as the (unreachable) fallback of the play loop's indexing. -/
def defaultQuiz : Quiz := ⟨0, "", ""⟩

/-- One round of `playCmd`'s `playOne` loop.  `tbr` is the remaining set
(`toBeResolved`), `score` the accumulated score, `choice k % tbr.length`
the random index drawn at step `k` (`Math.floor(Math.random() * len)` lies
in `[0, len)`), `userAnswers` the raw lines the user will type; an empty
`userAnswers` on a pending question models a user who never answers (the
session hangs after asking, as the promise never resolves). -/
def playOne (tbr : List Quiz) (score k : Nat) (choice : Nat → Nat)
    (userAnswers : List String) : Nat × List Ev :=
  if tbr.length = 0 then
    (score, [.log "No hay nada más que preguntar. ",
             .log s!"Fin del juego. Aciertos: {score}",
             .biglog (toString score), .prompt])
  else
    let i := choice k % tbr.length
    let quiz := tbr.getD i defaultQuiz
    let rest := tbr.eraseIdx i
    match userAnswers with
    | [] => (score, [.ask (quiz.question ++ ": ")])
    | a :: moreAnswers =>
      if answersMatch a quiz.answer then
        let r := playOne rest (score + 1) (k + 1) choice moreAnswers
        (r.1, .ask (quiz.question ++ ": ") ::
          .log s!"CORRECTO - Lleva {score + 1} aciertos" :: r.2)
      else
        (score, [.ask (quiz.question ++ ": "), .log "INCORRECTO",
                 .log s!"Fin del juego. Aciertos: {score}",
                 .biglog (toString score), .prompt])

/-- `playCmd`: load all quizzes and run the loop with score 0.  A failing
initial `findAll` (`loadErr`) is caught by the trailing `.catch`, which
prints `"Error: " + e` with plain `console.log` and does not re-prompt. -/
def playCmd (loadErr : Option String) (choice : Nat → Nat)
    (userAnswers : List String) (db : List Quiz) : Nat × List Ev :=
  match loadErr with
  | some e => (0, [.diag ("Error: " ++ e)])
  | none => playOne db 0 0 choice userAnswers

/-! ### Generic list lemmas -/

theorem dropWhile_self_idem (p : α → Bool) (l : List α) :
    (l.dropWhile p).dropWhile p = l.dropWhile p := by
  cases h : l.dropWhile p with
  | nil => simp
  | cons x xs =>
    have hx := List.head?_dropWhile_not p l
    rw [h] at hx
    simp only [List.head?_cons] at hx
    simp [List.dropWhile_cons, hx]

theorem perm_getD_cons_eraseIdx (d : α) :
    ∀ (l : List α) (i : Nat), i < l.length →
      l.Perm (l.getD i d :: l.eraseIdx i)
  | [], i, h => absurd h (by simp)
  | x :: xs, 0, _ => by simp
  | x :: xs, i + 1, h => by
    have h' : i < xs.length := by simpa using h
    have ih := perm_getD_cons_eraseIdx d xs i h'
    simp only [List.getD_cons_succ, List.eraseIdx_cons_succ]
    exact (ih.cons x).trans (List.Perm.swap (xs.getD i d) x (xs.eraseIdx i))

theorem getD_mem_of_lt (l : List α) (i : Nat) (d : α) (h : i < l.length) :
    l.getD i d ∈ l :=
  ((perm_getD_cons_eraseIdx d l i h).mem_iff).mpr (List.mem_cons_self _ _)

theorem subperm_cons_cons (a : α) {l₁ l₂ : List α} (h : l₁.Subperm l₂) :
    (a :: l₁).Subperm (a :: l₂) := by
  obtain ⟨l, p, s⟩ := h
  exact ⟨a :: l, p.cons a, s.cons₂ a⟩

/-! ### Trimming -/

theorem trimChars_idem (cs : List Char) :
    trimChars (trimChars cs) = trimChars cs := by
  unfold trimChars
  set A := cs.dropWhile isJsWhitespace with hA
  set D := A.reverse.dropWhile isJsWhitespace with hD
  have h1 : D.reverse.dropWhile isJsWhitespace = D.reverse := by
    cases hDr : D.reverse with
    | nil => simp
    | cons b bs =>
      have hDne : D ≠ [] := by
        intro h0
        rw [h0] at hDr
        simp at hDr
      obtain ⟨t, ht⟩ := List.dropWhile_suffix (l := A.reverse) isJsWhitespace
      have hlast : A.reverse.getLast? = D.getLast? := by
        rw [← ht, List.getLast?_append]
        cases hDl : D.getLast? with
        | none => exact absurd (List.getLast?_eq_none_iff.mp hDl) hDne
        | some dl => simp
      have hb : D.getLast? = some b := by
        rw [← List.head?_reverse, hDr, List.head?_cons]
      have hbA : A.head? = some b := by
        rw [← List.getLast?_reverse, hlast, hb]
      have hws := List.head?_dropWhile_not isJsWhitespace cs
      rw [← hA, hbA] at hws
      simp only at hws
      simp [List.dropWhile_cons, hws]
  rw [h1, List.reverse_reverse]
  have h2 : D.dropWhile isJsWhitespace = D := by
    rw [hD]
    exact dropWhile_self_idem _ _
  rw [h2]

theorem jsTrim_idem (s : String) : jsTrim (jsTrim s) = jsTrim s :=
  congrArg String.mk (trimChars_idem s.data)

/-! ### Decimal digit runs and `parseInt` -/

/-- Value of a decimal digit string, most significant digit first (the
specification-side reading of "the parsed leading integer"). -/
def decDigitsVal (ds : List Char) : Nat :=
  ds.foldl (fun acc c => acc * 10 + (c.toNat - '0'.toNat)) 0

theorem decDigit?_some_val {c : Char} {d : Nat} (h : decDigit? c = some d) :
    d = c.toNat - '0'.toNat ∧ ('0' ≤ c ∧ c ≤ '9') := by
  by_cases hc : ('0' ≤ c ∧ c ≤ '9')
  · rw [decDigit?, if_pos hc] at h
    exact ⟨(Option.some_inj.mp h).symm, hc⟩
  · rw [decDigit?, if_neg hc] at h
    cases h

theorem not_ws_of_decDigit {c : Char} (h : decDigit? c ≠ none) :
    isJsWhitespace c = false := by
  rcases hd : decDigit? c with _ | d
  · exact absurd hd h
  obtain ⟨-, hc, -⟩ := decDigit?_some_val hd
  by_contra hws
  rw [Bool.not_eq_false] at hws
  simp only [isJsWhitespace, Bool.or_eq_true, decide_eq_true_eq] at hws
  rcases hws with ((((h0 | h0) | h0) | h0) | h0) | h0 <;> subst h0 <;>
    exact absurd hc (by decide)

theorem digitsValAux_stop (rest : List Char)
    (hstop : ∀ c, rest.head? = some c → decDigit? c = none) :
    ∀ (ds : List Char) (acc : Nat), (∀ c ∈ ds, decDigit? c ≠ none) →
      digitsValAux decDigit? 10 acc (ds ++ rest) =
        ds.foldl (fun a c => a * 10 + (c.toNat - '0'.toNat)) acc
  | [], acc, _ => by
    cases rest with
    | nil => simp [digitsValAux]
    | cons c tail =>
      have hc := hstop c (by simp)
      simp [digitsValAux, hc]
  | c :: ds, acc, hds => by
    have hc : decDigit? c ≠ none := hds c (by simp)
    rcases hcv : decDigit? c with _ | d
    · exact absurd hcv hc
    obtain ⟨hdv, -⟩ := decDigit?_some_val hcv
    have hrec := digitsValAux_stop rest hstop ds (acc * 10 + d)
      (fun x hx => hds x (List.mem_cons_of_mem _ hx))
    rw [List.cons_append]
    rw [show digitsValAux decDigit? 10 acc (c :: (ds ++ rest)) =
          digitsValAux decDigit? 10 (acc * 10 + d) (ds ++ rest) by
        simp [digitsValAux, hcv]]
    rw [hrec, List.foldl_cons, hdv]

theorem jsParseInt_digit_run (ds rest : List Char)
    (hne : ds ≠ [])
    (hds : ∀ c ∈ ds, decDigit? c ≠ none)
    (hstop : ∀ c, rest.head? = some c → decDigit? c = none)
    (hhex : ds = ['0'] → ∀ c, rest.head? = some c → c ≠ 'x' ∧ c ≠ 'X') :
    jsParseInt (String.mk (ds ++ rest)) = some ((decDigitsVal ds : Int)) := by
  obtain ⟨d0, ds2, rfl⟩ : ∃ d0 ds2, ds = d0 :: ds2 := by
    cases ds with
    | nil => exact absurd rfl hne
    | cons a l => exact ⟨a, l, rfl⟩
  have hd0 : decDigit? d0 ≠ none := hds d0 (List.mem_cons_self _ _)
  rcases hv0 : decDigit? d0 with _ | dv0
  · exact absurd hv0 hd0
  obtain ⟨hdv0, hc0, -⟩ := decDigit?_some_val hv0
  have hws0 : isJsWhitespace d0 = false := not_ws_of_decDigit hd0
  have hminus : ¬ d0 = '-' := by
    intro h
    rw [h] at hc0
    exact absurd hc0 (by decide)
  have hplus : ¬ d0 = '+' := by
    intro h
    rw [h] at hc0
    exact absurd hc0 (by decide)
  have hdw : ((d0 :: ds2) ++ rest).dropWhile isJsWhitespace =
      d0 :: (ds2 ++ rest) := by
    simp [List.dropWhile_cons, hws0]
  unfold jsParseInt
  rw [show (String.mk ((d0 :: ds2) ++ rest)).data = (d0 :: ds2) ++ rest from rfl,
    hdw]
  simp only [if_neg hminus, if_neg hplus]
  cases hsr : ds2 ++ rest with
  | nil =>
    obtain ⟨hds2, hrest⟩ := List.append_eq_nil.mp hsr
    subst hds2
    rw [show parseUnsigned [d0] = digitsValue decDigit? 10 [d0] from rfl]
    simp [digitsValue, hv0, digitsValAux, decDigitsVal, hdv0]
  | cons c1 tail =>
    have hc1 : ¬ (d0 = '0' ∧ (c1 = 'x' ∨ c1 = 'X')) := by
      rintro ⟨h0, hx⟩
      cases ds2 with
      | nil =>
        have hr : rest.head? = some c1 := by
          rw [show rest = c1 :: tail by simpa using hsr]
          rfl
        have := hhex (by rw [h0]) c1 hr
        rcases hx with hx | hx
        · exact this.1 hx
        · exact this.2 hx
      | cons c1' ds3 =>
        have hc1' : c1' = c1 := by
          have := hsr
          simp only [List.cons_append] at this
          exact (List.cons.injEq _ _ _ _ ▸ this).1
        subst hc1'
        have hdig : decDigit? c1' ≠ none :=
          hds c1' (List.mem_cons_of_mem _ (List.mem_cons_self _ _))
        rcases hv1 : decDigit? c1' with _ | dv1
        · exact absurd hv1 hdig
        obtain ⟨-, -, hle⟩ := decDigit?_some_val hv1
        rcases hx with hx | hx <;> rw [hx] at hle <;> exact absurd hle (by decide)
    rw [show parseUnsigned (d0 :: c1 :: tail) =
          digitsValue decDigit? 10 (d0 :: c1 :: tail) by
        simp [parseUnsigned, hc1]]
    rw [← hsr]
    simp only [digitsValue, hv0]
    rw [digitsValAux_stop rest hstop ds2 dv0
      (fun x hx => hds x (List.mem_cons_of_mem _ hx))]
    simp [decDigitsVal, List.foldl_cons, hdv0]

/-! ### Claim C2 -/

/-- Claim C2, counterexample: an empty (but present) argument is rejected
by `validateId` as invalid (`parseInt("")` is NaN), not as missing — the
missing-parameter branch fires only on an `undefined` argument. -/
theorem validateId_empty_is_invalid :
    validateId (some "") = IdResult.invalidParam ∧
    validateId (some "") ≠ IdResult.missingParam := by
  decide

/-- Claim C2 (amended): an absent (`undefined`) argument fails with
`MissingParameterError`; a present argument with no parseable leading
integer — including the empty string — fails with
`InvalidParameterError`; otherwise validation succeeds with the parsed
leading integer (a leading decimal digit run, trailing characters
discarded), e.g. `"3abc"` succeeds with `3`. -/
theorem validateId_trichotomy :
    validateId none = IdResult.missingParam ∧
    validateId (some "") = IdResult.invalidParam ∧
    (∀ s : String, jsParseInt s = none →
      validateId (some s) = IdResult.invalidParam) ∧
    (∀ ds rest : List Char, ds ≠ [] → (∀ c ∈ ds, decDigit? c ≠ none) →
      (∀ c, rest.head? = some c → decDigit? c = none) →
      (ds = ['0'] → ∀ c, rest.head? = some c → c ≠ 'x' ∧ c ≠ 'X') →
      validateId (some (String.mk (ds ++ rest))) =
        IdResult.ok (decDigitsVal ds)) ∧
    validateId (some "3abc") = IdResult.ok 3 := by
  refine ⟨rfl, by decide, ?_, ?_, by decide⟩
  · intro s h
    simp [validateId, h]
  · intro ds rest h1 h2 h3 h4
    simp [validateId, jsParseInt_digit_run ds rest h1 h2 h3 h4]

/-- Claim C2, witness: `"42a"` validates to the leading integer `42`. -/
theorem validateId_trichotomy_witness :
    validateId (some (String.mk ['4', '2', 'a'])) =
      IdResult.ok (decDigitsVal ['4', '2']) :=
  validateId_trichotomy.2.2.2.1 ['4', '2'] ['a'] (by decide) (by decide)
    (by intro c hc; cases hc; decide)
    (by intro h; exact absurd h (by decide))

/-! ### Claim C1 -/

theorem findById_save_eq (db : List Quiz) (n : Int) (old newq : Quiz)
    (hnew : newq.id = n) (hf : findById db n = some old) :
    findById (db.map (fun r => if r.id == newq.id then newq else r)) n =
      some newq := by
  induction db with
  | nil => simp [findById] at hf
  | cons r db ih =>
    by_cases hr : r.id = n
    · have h1 : (r.id == newq.id) = true := by simp [hnew, hr]
      have hx : (if r.id == newq.id then newq else r) = newq := by simp [h1]
      simp only [findById, List.map_cons]
      rw [hx]
      exact List.find?_cons_of_pos (p := fun q : Quiz => q.id == n) _ (by simp [hnew])
    · have h1 : (r.id == newq.id) = false := by simp [hnew, hr]
      have hx : (if r.id == newq.id then newq else r) = r := by simp [h1]
      have hf' : findById db n = some old := by
        have step := List.find?_cons_of_neg (p := fun q : Quiz => q.id == n) (a := r)
          db (by simp [hr])
        simpa only [findById, step] using hf
      simp only [findById, List.map_cons]
      rw [hx]
      exact (List.find?_cons_of_neg (p := fun q : Quiz => q.id == n) (a := r) _
        (by simp [hr])).trans (ih hf')

/-- Claim C1 (confirmed): a successful edit stores the new *question* text
in both the question and the answer field — `editCmd` assigns
`quiz.answer = q` — so the submitted answer `aRaw` is discarded. -/
theorem editCmd_answer_gets_question (db : List Quiz) (s qRaw aRaw : String)
    (n : Int) (quiz : Quiz)
    (hv : validateId (some s) = IdResult.ok n)
    (hf : findById db n = some quiz)
    (hq : jsTrim qRaw ≠ "") :
    findById (editCmd (some s) qRaw aRaw db).1 n =
      some { quiz with question := jsTrim qRaw, answer := jsTrim qRaw } := by
  have hqid : quiz.id = n := by
    have := List.find?_some hf
    simpa using this
  have hmsgs : quizValidationMsgs (jsTrim qRaw) (jsTrim qRaw) = [] := by
    simp [quizValidationMsgs, hq]
  simp only [editCmd, hv, hf]
  simp only [saveOp, hmsgs]
  exact findById_save_eq db n quiz
    { quiz with question := jsTrim qRaw, answer := jsTrim qRaw } hqid hf

/-- Claim C1, witness: editing quiz `{id:7, question:"2+2?", answer:"4"}`
with new question `"3+3?"` and new answer `"6"` stores `"3+3?"` in both
fields; in particular the stored answer is `"3+3?"`, not `"6"`. -/
theorem editCmd_answer_gets_question_witness :
    findById (editCmd (some "7") "3+3?" "6" [⟨7, "2+2?", "4"⟩]).1 7 =
      some ⟨7, "3+3?", "3+3?"⟩ := by
  have h := editCmd_answer_gets_question [⟨7, "2+2?", "4"⟩] "7" "3+3?" "6" 7
    ⟨7, "2+2?", "4"⟩ (by decide) (by decide) (by decide)
  simpa using h

/-! ### Claims C3 and C4 -/

theorem filter_ne_eq_self_of_find?_none (db : List Quiz) (n : Int)
    (hf : findById db n = none) : destroyWhere db n = db := by
  rw [destroyWhere, List.filter_eq_self]
  intro q hq
  have := List.find?_eq_none.mp hf q hq
  simpa using this

/-- Claim C3, counterexample: `delete` on a valid id with no matching
record does not fail with `NotFoundError` — its trace is a bare re-prompt
with no error output at all. -/
theorem deleteCmd_no_notFoundError :
    deleteCmd (some "1") ([] : List Quiz) = ([], [Ev.prompt]) ∧
    hasErrorlog (deleteCmd (some "1") ([] : List Quiz)).2 = false := by
  decide

/-- Claim C3 (amended): on a validated id with no matching record, `show`,
`edit` and `test` fail with `NotFoundError` and leave storage unchanged,
while `delete` also leaves storage unchanged but completes without any
error, issuing only its single re-prompt. -/
theorem notFound_commands (db : List Quiz) (s qRaw aRaw userRaw : String)
    (n : Int)
    (hv : validateId (some s) = IdResult.ok n)
    (hf : findById db n = none) :
    showCmd (some s) db = (db, [.errorlog (notFoundMsg s), .prompt]) ∧
    editCmd (some s) qRaw aRaw db =
      (db, [.errorlog (notFoundMsg s), .prompt]) ∧
    testCmd (some s) userRaw db =
      (db, [.errorlog (notFoundMsg s), .prompt]) ∧
    deleteCmd (some s) db = (db, [Ev.prompt]) := by
  refine ⟨?_, ?_, ?_, ?_⟩
  · simp [showCmd, hv, hf]
  · simp [editCmd, hv, hf]
  · simp [testCmd, hv, hf]
  · simp [deleteCmd, hv, filter_ne_eq_self_of_find?_none db n hf]

/-- Claims C3, witness: id `1` against an empty table. -/
theorem notFound_commands_witness :
    showCmd (some "1") [] = ([], [.errorlog (notFoundMsg "1"), .prompt]) ∧
    editCmd (some "1") "q" "a" [] =
      ([], [.errorlog (notFoundMsg "1"), .prompt]) ∧
    testCmd (some "1") "u" [] =
      ([], [.errorlog (notFoundMsg "1"), .prompt]) ∧
    deleteCmd (some "1") [] = ([], [Ev.prompt]) :=
  notFound_commands [] "1" "q" "a" "u" 1 (by decide) rfl

/-- Claim C4 (confirmed): `delete` on a validated id matching no record
completes without error — the destroy affects zero rows, storage is
unchanged — and its whole trace is exactly one re-prompt. -/
theorem deleteCmd_nonexistent (db : List Quiz) (s : String) (n : Int)
    (hv : validateId (some s) = IdResult.ok n)
    (hf : findById db n = none) :
    deleteCmd (some s) db = (db, [Ev.prompt]) ∧
    hasErrorlog (deleteCmd (some s) db).2 = false ∧
    promptCount (deleteCmd (some s) db).2 = 1 := by
  have h : deleteCmd (some s) db = (db, [Ev.prompt]) := by
    simp [deleteCmd, hv, filter_ne_eq_self_of_find?_none db n hf]
  refine ⟨h, ?_, ?_⟩ <;> rw [h] <;> rfl

/-- Claim C4, witness: deleting id `5` from a table holding only id `2`
leaves the table as it was and re-prompts once. -/
theorem deleteCmd_nonexistent_witness :
    deleteCmd (some "5") [⟨2, "q", "a"⟩] = ([⟨2, "q", "a"⟩], [Ev.prompt]) ∧
    hasErrorlog (deleteCmd (some "5") [⟨2, "q", "a"⟩]).2 = false ∧
    promptCount (deleteCmd (some "5") [⟨2, "q", "a"⟩]).2 = 1 :=
  deleteCmd_nonexistent [⟨2, "q", "a"⟩] "5" 5 (by decide) (by decide)

/-! ### Claim C6 -/

/-- Claim C6 (confirmed): in both `testCmd` and the play loop the user's
answer is compared to the stored answer after trimming surrounding
whitespace and lower-casing both sides (the double trim on the user side —
once in `makeQuestion`, once in the handler — collapses to one), so
`"Madrid"`, `" madrid "` and `"MADRID"` all match a stored `"Madrid"` and
a genuinely different answer does not. -/
theorem answer_comparison_normalizes (u s : String) :
    answersMatch u s = (jsToLower (jsTrim u) == jsToLower (jsTrim s)) ∧
    answersMatch "Madrid" "Madrid" = true ∧
    answersMatch " madrid " "Madrid" = true ∧
    answersMatch "MADRID" "Madrid" = true ∧
    answersMatch "Madriz" "Madrid" = false ∧
    (testCmd (some "1") " madrid " [⟨1, "Capital", "Madrid"⟩]).2 =
      [.ask "Capital? ", .log "Su respuesta es correcta.",
       .biglog "Correcta", .prompt] ∧
    (testCmd (some "1") "Madriz" [⟨1, "Capital", "Madrid"⟩]).2 =
      [.ask "Capital? ", .log "Su respuesta es incorrecta.",
       .biglog "Incorrecta", .prompt] ∧
    (playCmd none (fun k => k) [" MADRID "] [⟨1, "Capital", "madrid"⟩]).1
      = 1 := by
  refine ⟨?_, by decide, by decide, by decide, by decide, by decide,
    by decide, by decide⟩
  unfold answersMatch
  rw [jsTrim_idem]

/-! ### Claim C7 -/

/-- Claim C7, counterexample: the add command does not store the literal
prompt input — `makeQuestion` resolves with the trimmed line, so typing
`" foo "` persists the question `"foo"`. -/
theorem addCmd_stores_trimmed :
    (addCmd none " foo " "bar" []).1 = [⟨1, "foo", "bar"⟩] ∧
    (Quiz.mk 1 "foo" "bar").question ≠ " foo " := by
  decide

/-- Claim C7 (amended): every add invocation — success, validation
failure, or storage error — ends with exactly one re-prompt, as the last
event of its trace; a successful create persists exactly one new record,
whose question and answer are the prompt inputs with surrounding
whitespace trimmed. -/
theorem addCmd_spec (storageErr : Option String) (qRaw aRaw : String)
    (db : List Quiz) :
    promptCount (addCmd storageErr qRaw aRaw db).2 = 1 ∧
    (addCmd storageErr qRaw aRaw db).2.getLast? = some Ev.prompt ∧
    (storageErr = none → jsTrim qRaw ≠ "" → jsTrim aRaw ≠ "" →
      addCmd storageErr qRaw aRaw db =
        (db ++ [⟨nextId db, jsTrim qRaw, jsTrim aRaw⟩],
         [.ask "Introduzca una pregunta: ", .ask "Introduzca la respuesta ",
          .log s!" Se ha añadido: {jsTrim qRaw} => {jsTrim aRaw}",
          .prompt])) := by
  cases storageErr with
  | some m => exact ⟨rfl, rfl, fun h => absurd h (by simp)⟩
  | none =>
    by_cases hq : jsTrim qRaw = ""
    · by_cases ha : jsTrim aRaw = ""
      · have hcmd : addCmd none qRaw aRaw db = (db,
            [.ask "Introduzca una pregunta: ", .ask "Introduzca la respuesta ",
             .errorlog "El quiz es erroneo:",
             .errorlog "Validation notEmpty on question failed",
             .errorlog "Validation notEmpty on answer failed", .prompt]) := by
          simp [addCmd, createOp, quizValidationMsgs, hq, ha]
        rw [hcmd]
        exact ⟨rfl, rfl, fun _ hq' => absurd hq hq'⟩
      · have hcmd : addCmd none qRaw aRaw db = (db,
            [.ask "Introduzca una pregunta: ", .ask "Introduzca la respuesta ",
             .errorlog "El quiz es erroneo:",
             .errorlog "Validation notEmpty on question failed", .prompt]) := by
          simp [addCmd, createOp, quizValidationMsgs, hq, ha]
        rw [hcmd]
        exact ⟨rfl, rfl, fun _ hq' => absurd hq hq'⟩
    · by_cases ha : jsTrim aRaw = ""
      · have hcmd : addCmd none qRaw aRaw db = (db,
            [.ask "Introduzca una pregunta: ", .ask "Introduzca la respuesta ",
             .errorlog "El quiz es erroneo:",
             .errorlog "Validation notEmpty on answer failed", .prompt]) := by
          simp [addCmd, createOp, quizValidationMsgs, hq, ha]
        rw [hcmd]
        exact ⟨rfl, rfl, fun _ _ ha' => absurd ha ha'⟩
      · have hcmd : addCmd none qRaw aRaw db =
            (db ++ [⟨nextId db, jsTrim qRaw, jsTrim aRaw⟩],
             [.ask "Introduzca una pregunta: ",
              .ask "Introduzca la respuesta ",
              .log s!" Se ha añadido: {jsTrim qRaw} => {jsTrim aRaw}",
              .prompt]) := by
          simp [addCmd, createOp, quizValidationMsgs, hq, ha]
        rw [hcmd]
        exact ⟨rfl, rfl, fun _ _ _ => rfl⟩

/-- Claim C7, witness: adding `" foo "` / `"bar"` to an empty table
appends exactly the record `{id:1, question:"foo", answer:"bar"}`. -/
theorem addCmd_spec_witness :
    promptCount (addCmd none " foo " "bar" []).2 = 1 ∧
    (addCmd none " foo " "bar" []).2.getLast? = some Ev.prompt ∧
    addCmd none " foo " "bar" [] =
      ([⟨1, "foo", "bar"⟩],
       [.ask "Introduzca una pregunta: ", .ask "Introduzca la respuesta ",
        .log " Se ha añadido: foo => bar", .prompt]) :=
  ⟨(addCmd_spec none " foo " "bar" []).1,
   (addCmd_spec none " foo " "bar" []).2.1,
   (addCmd_spec none " foo " "bar" []).2.2 rfl (by decide) (by decide)⟩

/-! ### Claim C8 -/

/-- Claim C8 (confirmed): when the initial `findAll` of a play session
fails, the error is caught by the chain's final `.catch`, printed with
plain `console.log` (`"Error: " + e`) rather than the formatted error
logger, and no REPL re-prompt is issued. -/
theorem playCmd_load_failure (e : String) (c : Nat → Nat)
    (ua : List String) (db : List Quiz) :
    playCmd (some e) c ua db = (0, [Ev.diag ("Error: " ++ e)]) ∧
    promptCount (playCmd (some e) c ua db).2 = 0 ∧
    hasErrorlog (playCmd (some e) c ua db).2 = false :=
  ⟨rfl, rfl, rfl⟩

/-! ### Claim C9 -/

/-- Claim C9 (confirmed): a play session over an empty table goes straight
to the empty-remaining-set terminal transition — nothing-left message,
final score 0, banner, exactly one re-prompt — and never asks a
question. -/
theorem playCmd_empty_db (c : Nat → Nat) (ua : List String) :
    playCmd none c ua [] =
      (0, [.log "No hay nada más que preguntar. ",
           .log "Fin del juego. Aciertos: 0", .biglog "0", .prompt]) ∧
    asksIn (playCmd none c ua []).2 = [] ∧
    promptCount (playCmd none c ua []).2 = 1 := by
  cases ua <;> exact ⟨rfl, rfl, rfl⟩

/-! ### Claim C5 -/

/-- The two-quiz table of the spec's play scenario. -/
def twoQuizDb : List Quiz := [⟨1, "Q1", "A1"⟩, ⟨2, "Q2", "A2"⟩]

/-- Claim C5 (confirmed): over `{Q1,A1},{Q2,A2}`, whatever the random
draws, answering both presented questions correctly ends the session with
score 2 and the nothing-left terminal messages, while answering the first
presented question incorrectly ends it immediately with score 0 and the
incorrect terminal messages — the second question is never asked (its
trace holds a single ask event). -/
theorem playCmd_two_quiz_session (c : Nat → Nat) :
    playCmd none c (if c 0 % 2 = 0 then ["A1", "A2"] else ["A2", "A1"])
        twoQuizDb =
      (2, [.ask (if c 0 % 2 = 0 then "Q1: " else "Q2: "),
           .log "CORRECTO - Lleva 1 aciertos",
           .ask (if c 0 % 2 = 0 then "Q2: " else "Q1: "),
           .log "CORRECTO - Lleva 2 aciertos",
           .log "No hay nada más que preguntar. ",
           .log "Fin del juego. Aciertos: 2", .biglog "2", .prompt]) ∧
    playCmd none c ["nope"] twoQuizDb =
      (0, [.ask (if c 0 % 2 = 0 then "Q1: " else "Q2: "),
           .log "INCORRECTO", .log "Fin del juego. Aciertos: 0",
           .biglog "0", .prompt]) := by
  have h : c 0 % 2 = 0 ∨ c 0 % 2 = 1 := Nat.mod_two_eq_zero_or_one (c 0)
  rcases h with h | h <;>
    exact ⟨by simp [playCmd, playOne, twoQuizDb, h, Nat.mod_one]; decide,
           by simp [playCmd, playOne, twoQuizDb, h, Nat.mod_one]; decide⟩

/-! ### Claim C10 -/

theorem playOne_terminal (tbr : List Quiz) (score k : Nat) (c : Nat → Nat)
    (ua : List String) (h : tbr.length = 0) :
    playOne tbr score k c ua =
      (score, [.log "No hay nada más que preguntar. ",
               .log s!"Fin del juego. Aciertos: {score}",
               .biglog (toString score), .prompt]) := by
  rw [playOne.eq_1, if_pos h]

theorem playOne_pending (tbr : List Quiz) (score k : Nat) (c : Nat → Nat)
    (h : ¬ tbr.length = 0) :
    playOne tbr score k c [] =
      (score,
       [.ask ((tbr.getD (c k % tbr.length) defaultQuiz).question ++ ": ")]) := by
  rw [playOne.eq_1, if_neg h]

theorem playOne_correct (a : String) (more : List String) (tbr : List Quiz)
    (score k : Nat) (c : Nat → Nat) (h : ¬ tbr.length = 0)
    (hm : answersMatch a (tbr.getD (c k % tbr.length) defaultQuiz).answer
      = true) :
    playOne tbr score k c (a :: more) =
      ((playOne (tbr.eraseIdx (c k % tbr.length)) (score + 1) (k + 1) c
          more).1,
       .ask ((tbr.getD (c k % tbr.length) defaultQuiz).question ++ ": ") ::
         .log s!"CORRECTO - Lleva {score + 1} aciertos" ::
         (playOne (tbr.eraseIdx (c k % tbr.length)) (score + 1) (k + 1) c
            more).2) := by
  rw [playOne.eq_1, if_neg h]
  simp only [hm, if_true]

theorem playOne_wrong (a : String) (more : List String) (tbr : List Quiz)
    (score k : Nat) (c : Nat → Nat) (h : ¬ tbr.length = 0)
    (hm : answersMatch a (tbr.getD (c k % tbr.length) defaultQuiz).answer
      = false) :
    playOne tbr score k c (a :: more) =
      (score,
       [.ask ((tbr.getD (c k % tbr.length) defaultQuiz).question ++ ": "),
        .log "INCORRECTO", .log s!"Fin del juego. Aciertos: {score}",
        .biglog (toString score), .prompt]) := by
  rw [playOne.eq_1, if_neg h]
  simp only [hm, Bool.false_eq_true, if_false]

theorem playOne_asks_subperm :
    ∀ (ua : List String) (tbr : List Quiz) (score k : Nat) (c : Nat → Nat),
      (asksIn (playOne tbr score k c ua).2).Subperm
        (tbr.map (fun q => q.question ++ ": ")) ∧
      (playOne tbr score k c ua).1 ≤
        score + (asksIn (playOne tbr score k c ua).2).length := by
  intro ua
  induction ua with
  | nil =>
    intro tbr score k c
    by_cases h : tbr.length = 0
    · rw [playOne_terminal tbr score k c [] h]
      simp [asksIn]
    · have hlen : 0 < tbr.length := Nat.pos_of_ne_zero h
      have hi : c k % tbr.length < tbr.length := Nat.mod_lt _ hlen
      have hmem : tbr.getD (c k % tbr.length) defaultQuiz ∈ tbr :=
        getD_mem_of_lt tbr _ defaultQuiz hi
      rw [playOne_pending tbr score k c h]
      constructor
      · simp only [asksIn, List.filterMap_cons, List.filterMap_nil]
        exact List.singleton_subperm_iff.mpr (List.mem_map_of_mem _ hmem)
      · simp [asksIn]
  | cons a more ih =>
    intro tbr score k c
    by_cases h : tbr.length = 0
    · rw [playOne_terminal tbr score k c (a :: more) h]
      simp [asksIn]
    · have hlen : 0 < tbr.length := Nat.pos_of_ne_zero h
      have hi : c k % tbr.length < tbr.length := Nat.mod_lt _ hlen
      have hmem : tbr.getD (c k % tbr.length) defaultQuiz ∈ tbr :=
        getD_mem_of_lt tbr _ defaultQuiz hi
      have hperm : tbr.Perm
          (tbr.getD (c k % tbr.length) defaultQuiz ::
            tbr.eraseIdx (c k % tbr.length)) :=
        perm_getD_cons_eraseIdx defaultQuiz tbr _ hi
      by_cases hm : answersMatch a
          (tbr.getD (c k % tbr.length) defaultQuiz).answer = true
      · obtain ⟨ih1, ih2⟩ :=
          ih (tbr.eraseIdx (c k % tbr.length)) (score + 1) (k + 1) c
        rw [playOne_correct a more tbr score k c h hm]
        constructor
        · simp only [asksIn, List.filterMap_cons]
          refine List.Subperm.trans ?_
            ((hperm.map (fun q => q.question ++ ": ")).symm.subperm)
          simp only [List.map_cons]
          exact subperm_cons_cons _ ih1
        · simp only [asksIn, List.filterMap_cons] at ih2 ⊢
          simp only [List.length_cons]
          omega
      · have hm2 : answersMatch a
            (tbr.getD (c k % tbr.length) defaultQuiz).answer = false := by
          simpa using hm
        rw [playOne_wrong a more tbr score k c h hm2]
        constructor
        · simp only [asksIn, List.filterMap_cons, List.filterMap_nil]
          exact List.singleton_subperm_iff.mpr (List.mem_map_of_mem _ hmem)
        · simp [asksIn]

/-- Claim C10 (confirmed): in every play session each initially loaded
quiz is asked at most once — the multiset of asked questions embeds into
the loaded table — the score grows by at most one per question asked, and
the final score never exceeds the initial number of quizzes. -/
theorem play_session_invariants (ua : List String) (tbr : List Quiz)
    (score k : Nat) (c : Nat → Nat) :
    (asksIn (playOne tbr score k c ua).2).Subperm
      (tbr.map (fun q => q.question ++ ": ")) ∧
    (playOne tbr score k c ua).1 ≤
      score + (asksIn (playOne tbr score k c ua).2).length ∧
    (playOne tbr score k c ua).1 ≤ score + tbr.length ∧
    (playCmd none c ua tbr).1 ≤ tbr.length := by
  obtain ⟨h1, h2⟩ := playOne_asks_subperm ua tbr score k c
  have hlen : (asksIn (playOne tbr score k c ua).2).length ≤ tbr.length := by
    have := h1.length_le
    simpa using this
  obtain ⟨g1, g2⟩ := playOne_asks_subperm ua tbr 0 0 c
  have hlen2 : (asksIn (playOne tbr 0 0 c ua).2).length ≤ tbr.length := by
    have := g1.length_le
    simpa using this
  have hcmd : (playCmd none c ua tbr).1 = (playOne tbr 0 0 c ua).1 := rfl
  exact ⟨h1, h2, by omega, by omega⟩

end P4Quiz
